import Mathlib

/-!
Verification of the helix-snapshot-scheduler core against its
natural-language specification.

The schedule document (`schedule.json`) is a JSON object mapping the
tenant key `org ++ "--" ++ site` to an object mapping snapshot ids to
scheduled-publish timestamp strings.  JSON objects are modelled as
association lists with string keys (JS object keys are unique; insertion
order is preserved, matching JS enumeration order).
-/

/-- Lookup a key in an association list, mirroring `obj[key]` on a JS
object (first binding wins; keys are unique in practice). -/
def alistLookup {α : Type} : List (String × α) → String → Option α
  | [], _ => none
  | (k, v) :: t, key => if k = key then some v else alistLookup t key

/-- Delete a key from an association list, mirroring `delete obj[key]`. -/
def alistRemove {α : Type} (l : List (String × α)) (key : String) :
    List (String × α) :=
  l.filter (fun p => p.1 ≠ key)

/-- Set a key in an association list, mirroring `obj[key] = v` (updates
the existing binding in place, else appends a new one). -/
def alistSet {α : Type} : List (String × α) → String → α → List (String × α)
  | [], key, v => [(key, v)]
  | (k, w) :: t, key, v =>
    if k = key then (k, v) :: t else (k, w) :: alistSet t key v

/-! ## The Schedule Store document and the removal algorithm -/

/-- One tenant's job map: snapshot id ↦ scheduled publish timestamp string. -/
abbrev SnapMap := List (String × String)

/-- The schedule document: tenant key ↦ job map. -/
abbrev ScheduleDoc := List (String × SnapMap)

/-- The composite tenant key, `org--site` in the source. -/
def tenantKey (org site : String) : String := org ++ "--" ++ site

/-- Removal of one job from the schedule document.  Mirrors the loop body
shared by `batchUpdateScheduledJson` (publish worker),
`batchRemoveFromScheduledJson` (DLQ worker) and `updateScheduledJson`
(per-item publish worker):

```
if (schedule[orgSiteKey] && schedule[orgSiteKey][snapshotId]) {
  delete schedule[orgSiteKey][snapshotId];
  if (Object.keys(schedule[orgSiteKey]).length === 0) delete schedule[orgSiteKey];
} else { /* log and skip */ }
```

A present job map is always truthy in JS (even `\x7b\x7d`), so the outer
check is key presence; the inner check is on the timestamp string, which
is falsy exactly when it is empty. -/
def removeSnapshot (schedule : ScheduleDoc) (org site snapshotId : String) :
    ScheduleDoc :=
  let key := tenantKey org site
  match alistLookup schedule key with
  | none => schedule
  | some snaps =>
    match alistLookup snaps snapshotId with
    | none => schedule
    | some v =>
      if v = "" then schedule
      else
        let snaps' := alistRemove snaps snapshotId
        if snaps'.isEmpty then alistRemove schedule key
        else alistSet schedule key snaps'

/-- The document invariant from the spec: every tenant key present in the
document maps to a non-empty job map. -/
def ScheduleInv (schedule : ScheduleDoc) : Prop :=
  ∀ p ∈ schedule, p.2 ≠ []

/-! ## Discovery: the centralized schedule scan (cron worker) -/

/-- The lookahead window, `LOOKAHEAD_MS = 5 * 60 * 1000` in the source. -/
def LOOKAHEAD_MS : Int := 5 * 60 * 1000

/-- Ceiling division of integers (`Math.ceil(a / b)` for exact integer
arguments and positive `b`), via `⌈a/b⌉ = -⌊-a/b⌋`. -/
def ceilDiv (a b : Int) : Int := -((-a).fdiv b)

/-- The dispatch-delay formula of the cron worker:
`Math.max(0, Math.ceil((scheduledPublish - now) / 1000))`.
Timestamps are epoch milliseconds. -/
def delaySecondsOf (scheduledPublish now : Int) : Int :=
  max 0 (ceilDiv (scheduledPublish - now) 1000)

/-- `str.split('--')` at the character level: split on leftmost
non-overlapping occurrences of the two-character separator. -/
def splitSeq : List Char → List (List Char)
  | [] => [[]]
  | '-' :: '-' :: rest => [] :: splitSeq rest
  | c :: rest =>
    match splitSeq rest with
    | [] => [[c]]
    | g :: gs => (c :: g) :: gs

/-- Splitting a tenant key, mirroring
`const [org, site] = orgSiteKey.split('--'); if (!org || !site) continue;`
(`undefined` and the empty string are both falsy). -/
def splitKey (key : String) : Option (String × String) :=
  let parts := (splitSeq key.data).map (fun cs => String.mk cs)
  let org := parts.getD 0 ""
  let site := parts.getD 1 ""
  if org = "" ∨ site = "" then none else some (org, site)

/-- A message sent to the publish queue by the cron worker. -/
structure QMsg where
  org : String
  site : String
  snapshotId : String
  scheduledPublish : String
  delaySeconds : Int
  deriving DecidableEq, Repr

/-- The inner loop of `getScheduledSnapshots` over one tenant's job map.
`parse` stands for `new Date(str).getTime()`; `none` models `NaN`
(an invalid date makes both comparisons false, so the entry is skipped
without aborting the scan). -/
def processSnaps (parse : String → Option Int) (now : Int) (org site : String) :
    SnapMap → List QMsg
  | [] => []
  | (snapshotId, str) :: rest =>
    match parse str with
    | none => processSnaps parse now org site rest
    | some t =>
      if t ≤ now + LOOKAHEAD_MS then
        { org := org, site := site, snapshotId := snapshotId,
          scheduledPublish := str,
          delaySeconds := delaySecondsOf t now } :: processSnaps parse now org site rest
      else processSnaps parse now org site rest

/-- The outer loop of `getScheduledSnapshots` over the schedule document:
invalid tenant keys are logged and skipped. -/
def scanSchedule (parse : String → Option Int) (now : Int) :
    ScheduleDoc → List QMsg
  | [] => []
  | (key, snaps) :: rest =>
    match splitKey key with
    | none => scanSchedule parse now rest
    | some (org, site) =>
      processSnaps parse now org site snaps ++ scanSchedule parse now rest

/-- `getScheduledSnapshots` of the cron worker: a missing
`schedule.json` yields the empty list (`if (!scheduleData) return [];`). -/
def getScheduledSnapshots (parse : String → Option Int) (now : Int) :
    Option ScheduleDoc → List QMsg
  | none => []
  | some doc => scanSchedule parse now doc

/-! ## Publish Executor: the batch publish worker (final revision)

The worker's `queue(batch, env)` handler first publishes every message in
the batch (throwing on the first failure), and only then performs the two
batched bookkeeping writes: `batchMoveToCompleted` (one write to
`completed/<today>.json`) and `batchUpdateScheduledJson` (one read and one
write of `schedule.json`).  The remote publish call and the clock are
modelled as parameters; R2 writes are recorded in trace fields so that
"exactly one save" is a provable statement. -/

/-- A message on the publish queue (`msg.body` in the worker). -/
structure PMsg where
  org : String
  site : String
  snapshotId : String
  scheduledPublish : String
  deriving DecidableEq, Repr

/-- A completion record appended to `completed/<today>.json`. -/
structure PubRec where
  org : String
  site : String
  snapshotId : String
  scheduledPublish : String
  publishedAt : String
  publishedBy : String
  deriving DecidableEq, Repr

/-- The R2 state visible to the publish worker, plus write traces:
`schedulePuts` and `completedPuts` record every `put` of `schedule.json`
and of `completed/<today>.json`; `publishCalls` records every invocation
of `publishSnapshot`. -/
structure PubStore where
  schedule : Option ScheduleDoc
  completedToday : Option (List PubRec)
  schedulePuts : List ScheduleDoc
  completedPuts : List (List PubRec)
  publishCalls : List PMsg
  deriving DecidableEq, Repr

/-- The completion record built for a successfully published message
(`publishedAt` is the per-message `new Date().toISOString()`, modelled by
the clock `pubAt` indexed by the message's position in the batch). -/
def mkPubRec (m : PMsg) (publishedAt : String) : PubRec :=
  { org := m.org, site := m.site, snapshotId := m.snapshotId,
    scheduledPublish := m.scheduledPublish, publishedAt := publishedAt,
    publishedBy := "scheduled-snapshot-publisher" }

/-- Step 1 of the handler: iterate the batch, calling the remote publish
endpoint (`publishOk`) for each message; on the first failure stop
(the code throws, aborting the loop).  Returns the publish calls made,
the completion records of the successes, and whether a failure occurred. -/
def pubPhase1 (publishOk : PMsg → Bool) (pubAt : Nat → String) :
    Nat → List PMsg → List PMsg × List PubRec × Bool
  | _, [] => ([], [], false)
  | i, m :: rest =>
    if publishOk m then
      let r := pubPhase1 publishOk pubAt (i + 1) rest
      (m :: r.1, mkPubRec m (pubAt i) :: r.2.1, r.2.2)
    else ([m], [], true)

/-- The completion records of a batch in which every publish succeeds. -/
def pubRecsOf (pubAt : Nat → String) : Nat → List PMsg → List PubRec
  | _, [] => []
  | i, m :: rest => mkPubRec m (pubAt i) :: pubRecsOf pubAt (i + 1) rest

/-- `batchMoveToCompleted`: read today's completed file (absent or
unreadable means start fresh), append all records, one write. -/
def batchMoveToCompleted (st : PubStore) (recs : List PubRec) : PubStore :=
  let completed := st.completedToday.getD [] ++ recs
  { st with completedToday := some completed,
            completedPuts := st.completedPuts ++ [completed] }

/-- Removal of a whole batch from a schedule document, the loop of
`batchUpdateScheduledJson`. -/
def batchRemoveAll (schedule : ScheduleDoc) (recs : List PubRec) : ScheduleDoc :=
  recs.foldl (fun s r => removeSnapshot s r.org r.site r.snapshotId) schedule

/-- `batchUpdateScheduledJson`: one read of `schedule.json` — throwing
`Schedule data not found` when it is absent — then all removals, then one
write. -/
def batchUpdateScheduledJson (st : PubStore) (recs : List PubRec) :
    Except String PubStore :=
  match st.schedule with
  | none => .error "Schedule data not found"
  | some schedule =>
    let schedule' := batchRemoveAll schedule recs
    .ok { st with schedule := some schedule',
                  schedulePuts := st.schedulePuts ++ [schedule'] }

/-- The error the worker throws when a publish call fails. -/
def publishFailMsg (m : PMsg) : String :=
  "Failed to publish snapshot " ++ m.snapshotId ++ " for " ++ m.org ++ "/" ++ m.site

/-- The `queue(batch, env)` handler of the batch publish worker.  Returns
the final store together with the error that escaped the handler, if any
(`some e` makes Cloudflare Queues redeliver the whole batch). -/
def publishQueue (publishOk : PMsg → Bool) (pubAt : Nat → String)
    (st : PubStore) (msgs : List PMsg) : PubStore × Option String :=
  let r := pubPhase1 publishOk pubAt 0 msgs
  let st1 := { st with publishCalls := st.publishCalls ++ r.1 }
  if r.2.2 then
    (st1, some (publishFailMsg (r.1.getLastD ⟨"", "", "", ""⟩)))
  else if r.2.1.isEmpty then (st1, none)
  else
    let st2 := batchMoveToCompleted st1 r.2.1
    match batchUpdateScheduledJson st2 r.2.1 with
    | .error e => (st2, some e)
    | .ok st3 => (st3, none)

/-! ## Dead-Letter Handler (DLQ worker)

The DLQ consumer logs each dead-lettered message, batch-appends failure
records to `failed/<today>.json`, and batch-removes the jobs from
`schedule.json`.  Both storage steps sit behind try/catch; R2 faults are
injected through a fault profile so that "never raises" is a statement
about the catch structure and not about the absence of failures. -/

/-- A dead-lettered message: the queue payload plus the queue-assigned
message id and timestamp. -/
structure DMsg where
  org : String
  site : String
  snapshotId : String
  scheduledPublish : String
  messageId : String
  timestamp : String
  deriving DecidableEq, Repr

/-- A failure record appended to `failed/<today>.json`. -/
structure FailRec where
  org : String
  site : String
  snapshotId : String
  scheduledPublish : String
  messageId : String
  timestamp : String
  failedAt : String
  reason : String
  deriving DecidableEq, Repr

/-- Which R2 operations throw during this invocation. -/
structure DlqFaults where
  failedGetThrows : Bool
  failedPutThrows : Bool
  scheduleGetThrows : Bool
  schedulePutThrows : Bool
  deriving DecidableEq, Repr

/-- The R2 state visible to the DLQ worker, with write traces. -/
structure DlqStore where
  schedule : Option ScheduleDoc
  failedToday : Option (List FailRec)
  schedulePuts : List ScheduleDoc
  failedPuts : List (List FailRec)
  deriving DecidableEq, Repr

/-- The failure record built for one message
(`reason = 'exceeded-max-retries'`, `failedAt = new Date().toISOString()`). -/
def mkFailRec (m : DMsg) (failedAt : String) : FailRec :=
  { org := m.org, site := m.site, snapshotId := m.snapshotId,
    scheduledPublish := m.scheduledPublish, messageId := m.messageId,
    timestamp := m.timestamp, failedAt := failedAt,
    reason := "exceeded-max-retries" }

/-- Reading `failed/<today>.json`; may throw per the fault profile. -/
def r2GetFailedToday (f : DlqFaults) (st : DlqStore) :
    Except String (Option (List FailRec)) :=
  if f.failedGetThrows then .error "R2 get failed" else .ok st.failedToday

/-- Writing `failed/<today>.json`; may throw per the fault profile. -/
def r2PutFailedToday (f : DlqFaults) (st : DlqStore) (recs : List FailRec) :
    Except String DlqStore :=
  if f.failedPutThrows then .error "R2 put failed"
  else .ok { st with failedToday := some recs,
                     failedPuts := st.failedPuts ++ [recs] }

/-- Reading `schedule.json`; may throw per the fault profile. -/
def r2GetSchedule (f : DlqFaults) (st : DlqStore) :
    Except String (Option ScheduleDoc) :=
  if f.scheduleGetThrows then .error "R2 get failed" else .ok st.schedule

/-- Writing `schedule.json`; may throw per the fault profile. -/
def r2PutSchedule (f : DlqFaults) (st : DlqStore) (schedule : ScheduleDoc) :
    Except String DlqStore :=
  if f.schedulePutThrows then .error "R2 put failed"
  else .ok { st with schedule := some schedule,
                     schedulePuts := st.schedulePuts ++ [schedule] }

/-- Removal of a whole DLQ batch from a schedule document. -/
def dlqRemoveAll (schedule : ScheduleDoc) (msgs : List DMsg) : ScheduleDoc :=
  msgs.foldl (fun s m => removeSnapshot s m.org m.site m.snapshotId) schedule

/-- The body of `batchRemoveFromScheduledJson` before its catch: one read
of `schedule.json` (a missing document is a logged no-op, not an error),
all removals, one write. -/
def batchRemoveFromScheduledJsonCore (f : DlqFaults) (st : DlqStore)
    (msgs : List DMsg) : Except String DlqStore := do
  let scheduleData ← r2GetSchedule f st
  match scheduleData with
  | none => return st
  | some schedule => r2PutSchedule f st (dlqRemoveAll schedule msgs)

/-- `batchRemoveFromScheduledJson`: the core wrapped in try/catch — a
storage failure is logged and swallowed, leaving the state unchanged. -/
def batchRemoveFromScheduledJson (f : DlqFaults) (st : DlqStore)
    (msgs : List DMsg) : DlqStore :=
  match batchRemoveFromScheduledJsonCore f st msgs with
  | .ok st' => st'
  | .error _ => st

/-- The failure-log block of the DLQ handler before its catch: read
today's failure file (its own inner try/catch turns a read failure into
"start fresh"), append all records, one write. -/
def dlqStoreFailedCore (f : DlqFaults) (failedAt : String) (st : DlqStore)
    (msgs : List DMsg) : Except String DlqStore :=
  let existing : List FailRec :=
    match r2GetFailedToday f st with
    | .error _ => []
    | .ok none => []
    | .ok (some l) => l
  r2PutFailedToday f st (existing ++ msgs.map (fun m => mkFailRec m failedAt))

/-- The failure-log block wrapped in its try/catch. -/
def dlqStoreFailed (f : DlqFaults) (failedAt : String) (st : DlqStore)
    (msgs : List DMsg) : DlqStore :=
  match dlqStoreFailedCore f failedAt st msgs with
  | .ok st' => st'
  | .error _ => st

/-- The `queue(batch, env)` handler of the DLQ worker.  An `.error`
result would mean an exception escaped the handler (making the queue
redeliver the DLQ batch); the handler is designed never to produce one. -/
def dlqQueue (f : DlqFaults) (failedAt : String) (st : DlqStore)
    (msgs : List DMsg) : Except String DlqStore :=
  if msgs.isEmpty then .ok st
  else
    let st1 := dlqStoreFailed f failedAt st msgs
    let st2 := batchRemoveFromScheduledJson f st1 msgs
    .ok st2

/-! ## Register worker: the schedule-update endpoint

Model of the validation-and-upsert core of `updateSchedule`
(register worker, final revision): after the snapshot manifest has been
fetched, its `scheduledPublish` is validated with
`Number.isNaN(new Date(scheduledPublish).getTime())` — nothing else —
and then upserted into `schedule.json`.  A failed or absent read of the
existing document starts from an empty object. -/

/-- `updateSchedule` after the manifest fetch: validate the due-time
string (`parse` models `new Date(s).getTime()`, `none` meaning `NaN`),
then upsert `schedule[org--site][snapshotId] = scheduledPublish` and
write the document.  `.error` is the 400 validation response, with the
store untouched. -/
def updateScheduleCore (parse : String → Option Int) (existing : Option ScheduleDoc)
    (org site snapshotId scheduledPublish : String) : Except String ScheduleDoc :=
  match parse scheduledPublish with
  | none =>
    .error "Invalid scheduledPublish date format. Please provide a valid ISO date string"
  | some _ =>
    let scheduleData := existing.getD []
    let key := tenantKey org site
    let snaps := (alistLookup scheduleData key).getD []
    .ok (alistSet scheduleData key (alistSet snaps snapshotId scheduledPublish))

/-! ## Tenant-poll worker (Strategy B): `processSnapshotList` -/

/-- A snapshot manifest as consumed by `processSnapshotList`:
`metadata.scheduledPublish` and `resources`, either of which may be
absent. -/
structure Manifest where
  scheduledPublish : Option String
  resources : Option (List String)
  deriving DecidableEq, Repr

/-- An entry of the dispatch list returned by `processSnapshotList`. -/
structure PollItem where
  org : String
  site : String
  snapshot : String
  publishAt : Int
  deriving DecidableEq, Repr

/-- The guard of `processSnapshotList`:
`manifest && manifest.metadata && manifest.metadata.scheduledPublish &&
manifest.resources.length > 0`.  An absent `resources` field makes
`.length` throw, which the per-snapshot catch turns into a skip — the
same outcome as a failed guard.  An empty `scheduledPublish` string is
falsy. -/
def manifestEligible (mani : Manifest) : Bool :=
  match mani.scheduledPublish, mani.resources with
  | some sp, some rs => sp ≠ "" && rs.length > 0
  | _, _ => false

/-- `processSnapshotList`: per snapshot, fetch the manifest (`fetch`
models the remote call, `none` covering a thrown fetch or a missing
manifest — both skip the snapshot without aborting its siblings), check
the guard, parse the due date, and keep the snapshot only when
`scheduledPublish >= now && scheduledPublish <= now + lookAheadMs`
(`NaN` comparisons are false, so an unparseable date is skipped). -/
def processSnapshotList (fetch : String → Option Manifest)
    (parse : String → Option Int) (now lookAheadMs : Int) (org site : String) :
    List String → List PollItem
  | [] => []
  | snapshot :: rest =>
    match fetch snapshot with
    | none => processSnapshotList fetch parse now lookAheadMs org site rest
    | some mani =>
      if manifestEligible mani then
        match mani.scheduledPublish.bind parse with
        | none => processSnapshotList fetch parse now lookAheadMs org site rest
        | some t =>
          if now ≤ t ∧ t ≤ now + lookAheadMs then
            { org := org, site := site, snapshot := snapshot, publishAt := t } ::
              processSnapshotList fetch parse now lookAheadMs org site rest
          else processSnapshotList fetch parse now lookAheadMs org site rest
      else processSnapshotList fetch parse now lookAheadMs org site rest

/-! ## Concrete instances used by the witness theorems -/

/-- Concrete queue message used by witnesses. -/
def wMsg1 : PMsg :=
  { org := "org1", site := "site1", snapshotId := "snap1",
    scheduledPublish := "2025-01-01T10:00:00Z" }

/-- Second concrete queue message used by witnesses. -/
def wMsg2 : PMsg :=
  { org := "org1", site := "site1", snapshotId := "snap2",
    scheduledPublish := "2025-01-01T10:02:00Z" }

/-- A publish oracle that succeeds on every snapshot. -/
def wPubOkAll : PMsg → Bool := fun _ => true

/-- A publish oracle that fails exactly on `snap2`. -/
def wPubOkFail : PMsg → Bool := fun m => m.snapshotId ≠ "snap2"

/-- A concrete clock for `publishedAt` stamps. -/
def wPubAt : Nat → String := fun _ => "2025-01-01T10:00:05Z"

/-- A concrete schedule document with one tenant and two jobs. -/
def wSched : ScheduleDoc :=
  [("org1--site1",
    [("snap1", "2025-01-01T10:00:00Z"), ("snap2", "2025-01-01T10:02:00Z")])]

/-- A concrete schedule document whose tenant has a single job. -/
def wSchedSingle : ScheduleDoc := [("a--b", [("x", "2025-01-01T10:00:00Z")])]

/-- Publish-worker store holding `wSched`. -/
def wPubStore : PubStore :=
  { schedule := some wSched, completedToday := none, schedulePuts := [],
    completedPuts := [], publishCalls := [] }

/-- Publish-worker store with no `schedule.json`. -/
def wPubStoreNoSched : PubStore :=
  { schedule := none, completedToday := none, schedulePuts := [],
    completedPuts := [], publishCalls := [] }

/-- Concrete completion record used by the C8 counterexample. -/
def wRec : PubRec := mkPubRec wMsg1 "2025-01-01T10:00:05Z"

/-- Concrete dead-lettered message. -/
def wDMsg : DMsg :=
  { org := "org1", site := "site1", snapshotId := "snap1",
    scheduledPublish := "2025-01-01T10:00:00Z", messageId := "m-1",
    timestamp := "2025-01-01T10:30:00Z" }

/-- Fault profile in which the failure-log write throws. -/
def wFaultsLogPut : DlqFaults :=
  { failedGetThrows := false, failedPutThrows := true,
    scheduleGetThrows := false, schedulePutThrows := false }

/-- DLQ store holding `wSched`. -/
def wDlqStore : DlqStore :=
  { schedule := some wSched, failedToday := none, schedulePuts := [],
    failedPuts := [] }

/-- Date parser used by the discovery witnesses: the boundary timestamp
parses to `now + LOOKAHEAD_MS` with `now = 0`. -/
def wParse : String → Option Int := fun s =>
  if s = "1970-01-01T00:05:00Z" then some 300000
  else if s = "1970-01-01T00:06:00Z" then some 360000
  else none

/-- A schedule document whose single job sits exactly on the lookahead
boundary for `now = 0`. -/
def wDocBoundary : ScheduleDoc :=
  [("org1--site1", [("snapB", "1970-01-01T00:05:00Z")])]

/-- Manifest fetcher used by the tenant-poll witness. -/
def wFetch : String → Option Manifest := fun s =>
  if s = "snapA" then
    some { scheduledPublish := some "1970-01-01T00:05:00Z", resources := some ["r1"] }
  else none

/-- Date parser used by the C9 theorem: the due-time string is a valid
date 3 minutes after the epoch (taken as `now`). -/
def wParseNearFuture : String → Option Int := fun s =>
  if s = "1970-01-01T00:03:00Z" then some 180000 else none

theorem alistLookup_remove_self {α : Type} (l : List (String × α)) (key : String) :
    alistLookup (alistRemove l key) key = none := by
  induction l with
  | nil => rfl
  | cons p t ih =>
    by_cases h : p.1 = key
    · simpa [alistRemove, List.filter, h] using ih
    · simpa [alistRemove, List.filter, h, alistLookup] using ih

theorem alistLookup_set_self {α : Type} (l : List (String × α)) (key : String) (v : α) :
    alistLookup (alistSet l key v) key = some v := by
  induction l with
  | nil => simp [alistSet, alistLookup]
  | cons p t ih =>
    rcases p with ⟨k, w⟩
    by_cases h : k = key
    · simp [alistSet, h, alistLookup]
    · simpa [alistSet, h, alistLookup] using ih

theorem mem_alistRemove {α : Type} {l : List (String × α)} {key : String}
    {p : String × α} (h : p ∈ alistRemove l key) : p ∈ l :=
  List.mem_of_mem_filter h

theorem mem_alistSet {α : Type} {l : List (String × α)} {key : String} {v : α}
    {p : String × α} (h : p ∈ alistSet l key v) : p ∈ l ∨ p.2 = v := by
  induction l with
  | nil =>
    simp [alistSet] at h
    right
    simp [h]
  | cons q t ih =>
    rcases q with ⟨k, w⟩
    by_cases hk : k = key
    · simp [alistSet, hk] at h
      rcases h with h | h
      · right; simp [h]
      · left; exact List.mem_cons_of_mem _ h
    · simp [alistSet, hk] at h
      rcases h with h | h
      · left; simp [h]
      · rcases ih h with h' | h'
        · left; exact List.mem_cons_of_mem _ h'
        · right; exact h'

theorem removeSnapshot_absent (schedule : ScheduleDoc) (org site snapshotId : String)
    (h : alistLookup schedule (tenantKey org site) = none ∨
      ∃ snaps, alistLookup schedule (tenantKey org site) = some snaps ∧
        alistLookup snaps snapshotId = none) :
    removeSnapshot schedule org site snapshotId = schedule := by
  rcases h with h | ⟨snaps, hs, hn⟩
  · simp [removeSnapshot, h]
  · simp [removeSnapshot, hs, hn]

theorem removeSnapshot_idem (schedule : ScheduleDoc) (org site snapshotId : String) :
    removeSnapshot (removeSnapshot schedule org site snapshotId) org site snapshotId =
      removeSnapshot schedule org site snapshotId := by
  unfold removeSnapshot
  cases hs : alistLookup schedule (tenantKey org site) with
  | none => simp [hs]
  | some snaps =>
    cases hn : alistLookup snaps snapshotId with
    | none => simp [hs, hn]
    | some v =>
      by_cases hv : v = ""
      · simp [hs, hn, hv]
      · by_cases he : (alistRemove snaps snapshotId).isEmpty
        · simp only [hs, hn, hv, he, if_false, if_true, ite_true, ite_false]
          simp [alistLookup_remove_self]
        · simp only [hs, hn, hv, he, if_false, ite_false]
          simp [alistLookup_set_self, alistLookup_remove_self]

theorem removeSnapshot_inv {schedule : ScheduleDoc} (org site snapshotId : String)
    (h : ScheduleInv schedule) :
    ScheduleInv (removeSnapshot schedule org site snapshotId) := by
  unfold removeSnapshot
  cases hs : alistLookup schedule (tenantKey org site) with
  | none => simpa [hs] using h
  | some snaps =>
    cases hn : alistLookup snaps snapshotId with
    | none => simpa [hs, hn] using h
    | some v =>
      by_cases hv : v = ""
      · simpa [hs, hn, hv] using h
      · by_cases he : (alistRemove snaps snapshotId).isEmpty
        · simp only [hs, hn, hv, he, if_false, if_true, ite_true, ite_false]
          intro p hp
          exact h p (mem_alistRemove hp)
        · simp only [hs, hn, hv, he, if_false, ite_false]
          intro p hp
          rcases mem_alistSet hp with hp' | hp'
          · exact h p hp'
          · rw [hp']
            intro hnil
            rw [hnil] at he
            simp [List.isEmpty] at he

/-- If the removal empties the tenant's job map (the tenant had exactly
this one job, with a truthy timestamp), the tenant key is deleted. -/
theorem removeSnapshot_last_job (schedule : ScheduleDoc) (org site snapshotId v : String)
    (h : alistLookup schedule (tenantKey org site) = some [(snapshotId, v)])
    (hv : v ≠ "") :
    alistLookup (removeSnapshot schedule org site snapshotId) (tenantKey org site) = none := by
  unfold removeSnapshot
  simp only [h]
  have h1 : alistLookup [(snapshotId, v)] snapshotId = some v := by
    simp [alistLookup]
  have h2 : alistRemove [(snapshotId, v)] snapshotId = [] := by
    simp [alistRemove]
  simp only [h1, h2, hv, if_false, ite_false, List.isEmpty, if_true, ite_true]
  exact alistLookup_remove_self schedule (tenantKey org site)

theorem mem_processSnaps_of {parse : String → Option Int} {now : Int}
    {org site : String} {snaps : SnapMap} {snapshotId str : String} {t : Int}
    (hmem : (snapshotId, str) ∈ snaps) (hp : parse str = some t)
    (hle : t ≤ now + LOOKAHEAD_MS) :
    ({ org := org, site := site, snapshotId := snapshotId,
       scheduledPublish := str, delaySeconds := delaySecondsOf t now } : QMsg) ∈
      processSnaps parse now org site snaps := by
  induction snaps with
  | nil => cases hmem
  | cons p rest ih =>
    rcases List.mem_cons.mp hmem with h | h
    · rcases p with ⟨sid, s⟩
      cases h
      simp only [processSnaps, hp, hle, if_true, ite_true]
      exact List.mem_cons_self _ _
    · rcases p with ⟨sid, s⟩
      simp only [processSnaps]
      cases hps : parse s with
      | none => exact ih h
      | some t' =>
        by_cases ht' : t' ≤ now + LOOKAHEAD_MS
        · simp only [ht', if_true, ite_true]
          exact List.mem_cons_of_mem _ (ih h)
        · simp only [ht', if_false, ite_false]
          exact ih h

theorem processSnaps_due {parse : String → Option Int} {now : Int}
    {org site : String} {snaps : SnapMap} {m : QMsg}
    (hm : m ∈ processSnaps parse now org site snaps) :
    ∃ t, parse m.scheduledPublish = some t ∧ t ≤ now + LOOKAHEAD_MS ∧
      m.delaySeconds = delaySecondsOf t now := by
  induction snaps with
  | nil => cases hm
  | cons p rest ih =>
    rcases p with ⟨sid, s⟩
    simp only [processSnaps] at hm
    cases hps : parse s with
    | none =>
      rw [hps] at hm
      exact ih hm
    | some t' =>
      rw [hps] at hm
      by_cases ht' : t' ≤ now + LOOKAHEAD_MS
      · simp only [ht', if_true, ite_true] at hm
        rcases List.mem_cons.mp hm with h | h
        · subst h
          exact ⟨t', hps, ht', rfl⟩
        · exact ih h
      · simp only [ht', if_false, ite_false] at hm
        exact ih hm

theorem mem_scanSchedule_of {parse : String → Option Int} {now : Int}
    {doc : ScheduleDoc} {key : String} {snaps : SnapMap} {org site : String}
    {m : QMsg} (hdoc : (key, snaps) ∈ doc) (hkey : splitKey key = some (org, site))
    (hm : m ∈ processSnaps parse now org site snaps) :
    m ∈ scanSchedule parse now doc := by
  induction doc with
  | nil => cases hdoc
  | cons e rest ih =>
    rcases List.mem_cons.mp hdoc with h | h
    · rcases e with ⟨k, sn⟩
      cases h
      simp only [scanSchedule, hkey]
      exact List.mem_append_left _ hm
    · rcases e with ⟨k, sn⟩
      simp only [scanSchedule]
      cases hks : splitKey k with
      | none => exact ih h
      | some os =>
        rcases os with ⟨o, s⟩
        exact List.mem_append_right _ (ih h)

theorem scanSchedule_due {parse : String → Option Int} {now : Int}
    {doc : ScheduleDoc} {m : QMsg} (hm : m ∈ scanSchedule parse now doc) :
    ∃ t, parse m.scheduledPublish = some t ∧ t ≤ now + LOOKAHEAD_MS := by
  induction doc with
  | nil => cases hm
  | cons e rest ih =>
    rcases e with ⟨k, sn⟩
    simp only [scanSchedule] at hm
    cases hks : splitKey k with
    | none =>
      rw [hks] at hm
      exact ih hm
    | some os =>
      rcases os with ⟨o, s⟩
      rw [hks] at hm
      rcases List.mem_append.mp hm with h | h
      · rcases processSnaps_due h with ⟨t, h1, h2, _⟩
        exact ⟨t, h1, h2⟩
      · exact ih h

theorem pubPhase1_all_ok {publishOk : PMsg → Bool} {pubAt : Nat → String}
    {msgs : List PMsg} (h : ∀ m ∈ msgs, publishOk m = true) (i : Nat) :
    pubPhase1 publishOk pubAt i msgs = (msgs, pubRecsOf pubAt i msgs, false) := by
  induction msgs generalizing i with
  | nil => rfl
  | cons m rest ih =>
    have hm : publishOk m = true := h m (List.mem_cons_self _ _)
    have hrest : ∀ m' ∈ rest, publishOk m' = true :=
      fun m' hm' => h m' (List.mem_cons_of_mem _ hm')
    simp [pubPhase1, hm, ih hrest, pubRecsOf]

theorem pubPhase1_first_fail {publishOk : PMsg → Bool} {pubAt : Nat → String}
    {pre : List PMsg} {mfail : PMsg} {post : List PMsg}
    (hpre : ∀ m ∈ pre, publishOk m = true) (hfail : publishOk mfail = false) (i : Nat) :
    pubPhase1 publishOk pubAt i (pre ++ mfail :: post) =
      (pre ++ [mfail], pubRecsOf pubAt i pre, true) := by
  induction pre generalizing i with
  | nil => simp [pubPhase1, hfail, pubRecsOf]
  | cons m rest ih =>
    have hm : publishOk m = true := hpre m (List.mem_cons_self _ _)
    have hrest : ∀ m' ∈ rest, publishOk m' = true :=
      fun m' hm' => hpre m' (List.mem_cons_of_mem _ hm')
    simp [pubPhase1, hm, ih hrest, pubRecsOf]

/-! ## Helper lemmas for the claim theorems -/

theorem getLastD_append_single (l : List PMsg) (a d : PMsg) :
    (l ++ [a]).getLastD d = a := by
  induction l with
  | nil => rfl
  | cons x t ih =>
    cases t with
    | nil => rfl
    | cons y t' => simpa using ih

theorem batchRemoveAll_inv {schedule : ScheduleDoc} (recs : List PubRec)
    (h : ScheduleInv schedule) : ScheduleInv (batchRemoveAll schedule recs) := by
  induction recs generalizing schedule with
  | nil => simpa [batchRemoveAll] using h
  | cons r rest ih =>
    have := removeSnapshot_inv r.org r.site r.snapshotId h
    simpa [batchRemoveAll, List.foldl_cons] using ih this

theorem pubRecsOf_ne_nil {pubAt : Nat → String} {i : Nat} {msgs : List PMsg}
    (h : msgs ≠ []) : (pubRecsOf pubAt i msgs).isEmpty = false := by
  cases msgs with
  | nil => exact absurd rfl h
  | cons m rest => simp [pubRecsOf]

theorem dlqStoreFailed_schedule (f : DlqFaults) (failedAt : String)
    (st : DlqStore) (msgs : List DMsg) :
    (dlqStoreFailed f failedAt st msgs).schedule = st.schedule := by
  unfold dlqStoreFailed dlqStoreFailedCore r2PutFailedToday
  by_cases h : f.failedPutThrows
  · simp [h]
  · simp [h]

/-! ## Claim theorems -/

/-- C1: fail-fast batch semantics of the Publish Executor.  For a batch
in which every job before `mfail` publishes successfully and `mfail`
fails, the handler makes publish calls exactly for the jobs up to and
including `mfail` — none for the jobs after it — raises the publish
error, and leaves the schedule document, the audit log and their write
traces untouched. -/
theorem c1_fail_fast_batch (publishOk : PMsg → Bool) (pubAt : Nat → String)
    (st : PubStore) (pre : List PMsg) (mfail : PMsg) (post : List PMsg)
    (hpre : ∀ m ∈ pre, publishOk m = true) (hfail : publishOk mfail = false) :
    publishQueue publishOk pubAt st (pre ++ mfail :: post) =
      ({ st with publishCalls := st.publishCalls ++ (pre ++ [mfail]) },
        some (publishFailMsg mfail)) := by
  unfold publishQueue
  rw [pubPhase1_first_fail hpre hfail 0]
  simp [getLastD_append_single]

/-- C1 witness: a two-message batch whose second publish fails makes
both publish calls, raises, and mutates nothing. -/
theorem c1_fail_fast_batch_witness :
    publishQueue wPubOkFail wPubAt wPubStore ([wMsg1] ++ wMsg2 :: []) =
      ({ wPubStore with publishCalls := wPubStore.publishCalls ++ ([wMsg1] ++ [wMsg2]) },
        some (publishFailMsg wMsg2)) :=
  c1_fail_fast_batch wPubOkFail wPubAt wPubStore [wMsg1] wMsg2 []
    (by decide) (by decide)

/-- C2 counterexample: a one-message batch that publishes successfully,
run against a store with no `schedule.json`: the handler performs the
audit-log save but zero Schedule Store saves, and raises instead —
refuting "exactly one Schedule Store save" as universally stated. -/
theorem c2_counterexample_missing_schedule :
    (∀ m ∈ [wMsg1], wPubOkAll m = true) ∧
    (publishQueue wPubOkAll wPubAt wPubStoreNoSched [wMsg1]).1.completedPuts.length = 1 ∧
    (publishQueue wPubOkAll wPubAt wPubStoreNoSched [wMsg1]).1.schedulePuts = [] ∧
    (publishQueue wPubOkAll wPubAt wPubStoreNoSched [wMsg1]).2 =
      some "Schedule data not found" := by
  refine ⟨by decide, ?_, ?_, ?_⟩ <;> rfl

/-- C2 (amended): for a non-empty batch that publishes entirely
successfully, provided the schedule document exists, the handler performs
exactly one audit-log save containing all N completion records and
exactly one Schedule Store save containing the removal of all N jobs
(no per-job saves), and raises nothing. -/
theorem c2_batch_coalesced_bookkeeping (publishOk : PMsg → Bool)
    (pubAt : Nat → String) (st : PubStore) (msgs : List PMsg) (sched : ScheduleDoc)
    (hsched : st.schedule = some sched) (hall : ∀ m ∈ msgs, publishOk m = true)
    (hne : msgs ≠ []) :
    publishQueue publishOk pubAt st msgs =
      ({ st with
          publishCalls := st.publishCalls ++ msgs,
          completedToday := some (st.completedToday.getD [] ++ pubRecsOf pubAt 0 msgs),
          completedPuts :=
            st.completedPuts ++ [st.completedToday.getD [] ++ pubRecsOf pubAt 0 msgs],
          schedule := some (batchRemoveAll sched (pubRecsOf pubAt 0 msgs)),
          schedulePuts :=
            st.schedulePuts ++ [batchRemoveAll sched (pubRecsOf pubAt 0 msgs)] },
        none) := by
  unfold publishQueue
  rw [pubPhase1_all_ok hall 0]
  simp only [pubRecsOf_ne_nil hne, Bool.false_eq_true, if_false, ite_false,
    batchMoveToCompleted, batchUpdateScheduledJson, hsched]

/-- C2 witness: a two-message batch over a store holding the document. -/
theorem c2_batch_coalesced_bookkeeping_witness :
    publishQueue wPubOkAll wPubAt wPubStore [wMsg1, wMsg2] =
      ({ wPubStore with
          publishCalls := wPubStore.publishCalls ++ [wMsg1, wMsg2],
          completedToday :=
            some (wPubStore.completedToday.getD [] ++ pubRecsOf wPubAt 0 [wMsg1, wMsg2]),
          completedPuts :=
            wPubStore.completedPuts ++
              [wPubStore.completedToday.getD [] ++ pubRecsOf wPubAt 0 [wMsg1, wMsg2]],
          schedule := some (batchRemoveAll wSched (pubRecsOf wPubAt 0 [wMsg1, wMsg2])),
          schedulePuts :=
            wPubStore.schedulePuts ++
              [batchRemoveAll wSched (pubRecsOf wPubAt 0 [wMsg1, wMsg2])] },
        none) :=
  c2_batch_coalesced_bookkeeping wPubOkAll wPubAt wPubStore [wMsg1, wMsg2] wSched
    rfl (by decide) (by decide)

/-- C3: removal from the Schedule Store is a no-op when the tenant key is
absent or the job id is absent under it (log-and-skip, never an error —
the model function is total), and removal is idempotent: applying it
twice equals applying it once. -/
theorem c3_removal_noop_idempotent (schedule : ScheduleDoc)
    (org site snapshotId : String) :
    ((alistLookup schedule (tenantKey org site) = none ∨
      ∃ snaps, alistLookup schedule (tenantKey org site) = some snaps ∧
        alistLookup snaps snapshotId = none) →
      removeSnapshot schedule org site snapshotId = schedule) ∧
    removeSnapshot (removeSnapshot schedule org site snapshotId) org site snapshotId =
      removeSnapshot schedule org site snapshotId :=
  ⟨removeSnapshot_absent schedule org site snapshotId,
   removeSnapshot_idem schedule org site snapshotId⟩

/-- C3 witness: removing a job id that is not present under the tenant
`a--b` leaves the document unchanged, and a removal is idempotent there. -/
theorem c3_removal_noop_idempotent_witness :
    removeSnapshot wSchedSingle "a" "b" "y" = wSchedSingle ∧
    removeSnapshot (removeSnapshot wSchedSingle "a" "b" "y") "a" "b" "y" =
      removeSnapshot wSchedSingle "a" "b" "y" :=
  ⟨(c3_removal_noop_idempotent wSchedSingle "a" "b" "y").1
      (Or.inr ⟨[("x", "2025-01-01T10:00:00Z")], by decide, by decide⟩),
   (c3_removal_noop_idempotent wSchedSingle "a" "b" "y").2⟩

/-- C4: removal preserves the document invariant that every tenant key
present maps to a non-empty job map (stated for the batched removal used
by the publish and DLQ workers), and removing a tenant's last job deletes
the tenant key itself from the document that is saved. -/
theorem c4_no_empty_tenant (schedule : ScheduleDoc) (recs : List PubRec)
    (org site snapshotId v : String) :
    (ScheduleInv schedule → ScheduleInv (batchRemoveAll schedule recs)) ∧
    (alistLookup schedule (tenantKey org site) = some [(snapshotId, v)] → v ≠ "" →
      alistLookup (removeSnapshot schedule org site snapshotId)
        (tenantKey org site) = none) :=
  ⟨fun h => batchRemoveAll_inv recs h,
   fun h hv => removeSnapshot_last_job schedule org site snapshotId v h hv⟩

/-- C4 witness: removing the single job of tenant `a--b` deletes the
tenant key, and the batched removal of that job from `wSched`'s tenant
preserves the invariant. -/
theorem c4_no_empty_tenant_witness :
    ScheduleInv (batchRemoveAll wSchedSingle [wRec]) ∧
    alistLookup (removeSnapshot wSchedSingle "a" "b" "x") (tenantKey "a" "b") = none :=
  ⟨(c4_no_empty_tenant wSchedSingle [wRec] "a" "b" "x" "2025-01-01T10:00:00Z").1
      (by unfold ScheduleInv; decide),
   (c4_no_empty_tenant wSchedSingle [wRec] "a" "b" "x" "2025-01-01T10:00:00Z").2
      (by decide) (by decide)⟩

/-- C5: DLQ resilience.  For every fault profile — in particular when the
failure-log write throws — the DLQ handler returns without error, and
(whenever the schedule document is readable and writable) the Schedule
Store removal step still runs for all jobs of the batch: the resulting
schedule is the batch removal applied to the loaded document. -/
theorem c5_dlq_resilience (f : DlqFaults) (failedAt : String) (st : DlqStore)
    (msgs : List DMsg) (sched : ScheduleDoc) :
    (dlqQueue f failedAt st msgs).isOk = true ∧
    (st.schedule = some sched → f.scheduleGetThrows = false →
      f.schedulePutThrows = false →
      (dlqQueue f failedAt st msgs).map DlqStore.schedule =
        .ok (some (dlqRemoveAll sched msgs))) := by
  constructor
  · unfold dlqQueue
    by_cases h : msgs.isEmpty <;> simp [h, Except.isOk, Except.toBool]
  · intro hsched hget hput
    unfold dlqQueue
    by_cases h : msgs.isEmpty
    · have : msgs = [] := List.isEmpty_iff.mp h
      subst this
      simp [dlqRemoveAll, hsched, Except.map]
    · have hs1 : (dlqStoreFailed f failedAt st msgs).schedule = some sched := by
        rw [dlqStoreFailed_schedule]; exact hsched
      simp only [h, Bool.false_eq_true, if_false, ite_false]
      unfold batchRemoveFromScheduledJson batchRemoveFromScheduledJsonCore
      simp [r2GetSchedule, r2PutSchedule, hget, hput, hs1, Except.map,
        Except.bind, bind]

/-- C5 witness: one dead-lettered message, with the failure-log write
throwing: the handler still succeeds and the job is removed from the
schedule. -/
theorem c5_dlq_resilience_witness :
    (dlqQueue wFaultsLogPut "2025-01-01T11:00:00Z" wDlqStore [wDMsg]).isOk = true ∧
    (dlqQueue wFaultsLogPut "2025-01-01T11:00:00Z" wDlqStore [wDMsg]).map
        DlqStore.schedule = .ok (some (dlqRemoveAll wSched [wDMsg])) :=
  ⟨(c5_dlq_resilience wFaultsLogPut "2025-01-01T11:00:00Z" wDlqStore [wDMsg] wSched).1,
   (c5_dlq_resilience wFaultsLogPut "2025-01-01T11:00:00Z" wDlqStore [wDMsg] wSched).2
      rfl rfl rfl⟩

/-- C6: the dispatch delay `max(0, ceil((scheduledPublish - now) / 1000))`
computed by the cron worker is exactly 0 for every entry already due
(`scheduledPublish <= now`), and is never negative. -/
theorem c6_nonnegative_delay (scheduledPublish now : Int) :
    (scheduledPublish ≤ now → delaySecondsOf scheduledPublish now = 0) ∧
    0 ≤ delaySecondsOf scheduledPublish now := by
  constructor
  · intro h
    unfold delaySecondsOf ceilDiv
    have h1 : (0 : Int) ≤ -(scheduledPublish - now) := by omega
    have h2 : (0 : Int) ≤ (-(scheduledPublish - now)).fdiv 1000 :=
      Int.fdiv_nonneg h1 (by norm_num)
    omega
  · exact le_max_left 0 _

/-- C6 witness: an entry four minutes past due gets delay 0. -/
theorem c6_nonnegative_delay_witness :
    delaySecondsOf (-240000) 0 = 0 ∧ 0 ≤ delaySecondsOf (-240000) 0 :=
  ⟨(c6_nonnegative_delay (-240000) 0).1 (by decide),
   (c6_nonnegative_delay (-240000) 0).2⟩

/-- C7: the lookahead filter of the cron worker is inclusive at the upper
boundary.  An entry of the schedule document whose due time parses to
exactly `now + LOOKAHEAD_MS` is emitted (with its computed delay); an
entry whose due time parses strictly beyond the boundary produces no
emitted message carrying its timestamp string in that tick. -/
theorem c7_lookahead_boundary (parse : String → Option Int) (now : Int)
    (doc : ScheduleDoc) (key : String) (snaps : SnapMap)
    (org site snapshotId str : String) :
    ((key, snaps) ∈ doc → splitKey key = some (org, site) →
      (snapshotId, str) ∈ snaps → parse str = some (now + LOOKAHEAD_MS) →
      ({ org := org, site := site, snapshotId := snapshotId,
         scheduledPublish := str,
         delaySeconds := delaySecondsOf (now + LOOKAHEAD_MS) now } : QMsg) ∈
        getScheduledSnapshots parse now (some doc)) ∧
    (∀ t, parse str = some t → now + LOOKAHEAD_MS < t →
      ∀ m ∈ getScheduledSnapshots parse now (some doc),
        m.scheduledPublish ≠ str) := by
  constructor
  · intro hdoc hkey hmem hp
    exact mem_scanSchedule_of hdoc hkey (mem_processSnaps_of hmem hp le_rfl)
  · intro t hp ht m hm heq
    rcases scanSchedule_due hm with ⟨t', hp', hle⟩
    rw [heq, hp] at hp'
    cases hp'
    omega

/-- C7 witness: with `now = 0`, the job scheduled exactly at the
5-minute boundary is emitted from the concrete document. -/
theorem c7_lookahead_boundary_witness :
    ({ org := "org1", site := "site1", snapshotId := "snapB",
       scheduledPublish := "1970-01-01T00:05:00Z",
       delaySeconds := delaySecondsOf (0 + LOOKAHEAD_MS) 0 } : QMsg) ∈
      getScheduledSnapshots wParse 0 (some wDocBoundary) :=
  (c7_lookahead_boundary wParse 0 wDocBoundary "org1--site1"
      [("snapB", "1970-01-01T00:05:00Z")] "org1" "site1" "snapB"
      "1970-01-01T00:05:00Z").1
    (by decide) (by decide) (by decide) (by decide)

/-- C8 counterexample: the Publish Executor's bookkeeping load of
`schedule.json` raises `Schedule data not found` when the document is
absent — refuting "loading ... never results in an error" for that
component. -/
theorem c8_counterexample_publish_load :
    batchUpdateScheduledJson wPubStoreNoSched [wRec] =
      .error "Schedule data not found" := rfl

/-- C8 (amended): a missing schedule document is treated as empty and is
never an error for the Discovery scan (empty emission), the Dead-Letter
removal (logged no-op) and the schedule upsert (starts from an empty
object); the Publish Executor's batch bookkeeping instead raises
`Schedule data not found`, so the queue retries the batch. -/
theorem c8_missing_document_loads (parse : String → Option Int) (now : Int)
    (f : DlqFaults) (stD : DlqStore) (msgsD : List DMsg) (stP : PubStore)
    (recs : List PubRec) (org site snapshotId scheduledPublish : String) :
    getScheduledSnapshots parse now none = [] ∧
    (stD.schedule = none → f.scheduleGetThrows = false →
      batchRemoveFromScheduledJsonCore f stD msgsD = .ok stD) ∧
    updateScheduleCore parse none org site snapshotId scheduledPublish =
      updateScheduleCore parse (some []) org site snapshotId scheduledPublish ∧
    (stP.schedule = none →
      batchUpdateScheduledJson stP recs = .error "Schedule data not found") := by
  refine ⟨rfl, ?_, rfl, ?_⟩
  · intro hs hget
    unfold batchRemoveFromScheduledJsonCore r2GetSchedule
    simp [hget, hs, Except.bind, bind, pure, Except.pure]
  · intro hs
    unfold batchUpdateScheduledJson
    rw [hs]

/-- C8 witness: the amended behaviours at concrete inputs. -/
theorem c8_missing_document_loads_witness :
    getScheduledSnapshots wParse 0 none = [] ∧
    (batchRemoveFromScheduledJsonCore wFaultsLogPut
        { schedule := none, failedToday := none, schedulePuts := [], failedPuts := [] }
        [wDMsg] =
      .ok { schedule := none, failedToday := none, schedulePuts := [],
            failedPuts := [] }) ∧
    updateScheduleCore wParseNearFuture none "org1" "site1" "snap1"
        "1970-01-01T00:03:00Z" =
      updateScheduleCore wParseNearFuture (some []) "org1" "site1" "snap1"
        "1970-01-01T00:03:00Z" ∧
    batchUpdateScheduledJson wPubStoreNoSched [wRec] =
      .error "Schedule data not found" :=
  ⟨(c8_missing_document_loads wParse 0 wFaultsLogPut
      { schedule := none, failedToday := none, schedulePuts := [], failedPuts := [] }
      [wDMsg] wPubStoreNoSched [wRec] "org1" "site1" "snap1"
      "1970-01-01T00:03:00Z").1,
   (c8_missing_document_loads wParseNearFuture 0 wFaultsLogPut
      { schedule := none, failedToday := none, schedulePuts := [], failedPuts := [] }
      [wDMsg] wPubStoreNoSched [wRec] "org1" "site1" "snap1"
      "1970-01-01T00:03:00Z").2.1 rfl rfl,
   (c8_missing_document_loads wParseNearFuture 0 wFaultsLogPut
      { schedule := none, failedToday := none, schedulePuts := [], failedPuts := [] }
      [wDMsg] wPubStoreNoSched [wRec] "org1" "site1" "snap1"
      "1970-01-01T00:03:00Z").2.2.1,
   (c8_missing_document_loads wParseNearFuture 0 wFaultsLogPut
      { schedule := none, failedToday := none, schedulePuts := [], failedPuts := [] }
      [wDMsg] wPubStoreNoSched [wRec] "org1" "site1" "snap1"
      "1970-01-01T00:03:00Z").2.2.2 rfl⟩

/-- C9: behaviour of the register worker's `updateSchedule` at the
failing input.  With `now` at the epoch, a manifest due-time of
`1970-01-01T00:03:00Z` — well-formed but only 3 minutes in the future —
is accepted: the handler upserts it into the Schedule Store rather than
rejecting it.  The source validates only
`Number.isNaN(new Date(scheduledPublish).getTime())`; the repository's
own tests expect a 400 `Scheduled publish must be at least 5 minutes in
the future` for this input. -/
theorem c9_near_future_accepted :
    updateScheduleCore wParseNearFuture none "org1" "site1" "snap1"
        "1970-01-01T00:03:00Z" =
      .ok [("org1--site1", [("snap1", "1970-01-01T00:03:00Z")])] := rfl

/-- C10: the per-tenant polling variant never dispatches a past-due or
resource-less snapshot.  Every item emitted by `processSnapshotList` has
`now <= publishAt <= now + lookAheadMs`, and its manifest carries a
present due-date that parses to `publishAt` and a non-empty resources
list. -/
theorem c10_no_past_due_dispatch (fetch : String → Option Manifest)
    (parse : String → Option Int) (now lookAheadMs : Int) (org site : String)
    (snaps : List String) :
    ∀ m ∈ processSnapshotList fetch parse now lookAheadMs org site snaps,
      now ≤ m.publishAt ∧ m.publishAt ≤ now + lookAheadMs ∧
      ∃ mani sp rs, fetch m.snapshot = some mani ∧
        mani.scheduledPublish = some sp ∧ parse sp = some m.publishAt ∧
        mani.resources = some rs ∧ rs ≠ [] := by
  intro m hm
  induction snaps with
  | nil => cases hm
  | cons s rest ih =>
    simp only [processSnapshotList] at hm
    cases hf : fetch s with
    | none =>
      rw [hf] at hm
      exact ih hm
    | some mani =>
      rw [hf] at hm
      by_cases he : manifestEligible mani
      · simp only [he, if_true, ite_true] at hm
        cases hb : mani.scheduledPublish.bind parse with
        | none =>
          rw [hb] at hm
          exact ih hm
        | some t =>
          simp only [hb] at hm
          by_cases hw : now ≤ t ∧ t ≤ now + lookAheadMs
          · rw [if_pos hw] at hm
            rcases List.mem_cons.mp hm with h | h
            · subst h
              refine ⟨hw.1, hw.2, ?_⟩
              rcases Option.bind_eq_some.mp hb with ⟨sp, hsp, hparse⟩
              unfold manifestEligible at he
              rw [hsp] at he
              cases hrs : mani.resources with
              | none => rw [hrs] at he; simp at he
              | some rs =>
                rw [hrs] at he
                simp only [Bool.and_eq_true, decide_eq_true_eq] at he
                refine ⟨mani, sp, rs, hf, hsp, hparse, hrs, ?_⟩
                intro hnil
                rw [hnil] at he
                simp at he
            · exact ih h
          · rw [if_neg hw] at hm
            exact ih hm
      · simp only [he, Bool.false_eq_true, if_false, ite_false] at hm
        exact ih hm

/-- C10 witness: a concrete eligible snapshot inside the window is
emitted and satisfies the bounds. -/
theorem c10_no_past_due_dispatch_witness :
    (50 : Int) ≤
        ({ org := "org1", site := "site1", snapshot := "snapA",
           publishAt := 300000 } : PollItem).publishAt ∧
      ({ org := "org1", site := "site1", snapshot := "snapA",
         publishAt := 300000 } : PollItem).publishAt ≤ 50 + 600000 ∧
      ∃ mani sp rs, wFetch "snapA" = some mani ∧
        mani.scheduledPublish = some sp ∧ wParse sp = some 300000 ∧
        mani.resources = some rs ∧ rs ≠ [] :=
  c10_no_past_due_dispatch wFetch wParse 50 600000 "org1" "site1" ["snapA"]
    { org := "org1", site := "site1", snapshot := "snapA", publishAt := 300000 }
    (by decide)
